import Mathlib

/-!  Verification development for the dataset-construction subsystem of
the vak repository: the data model (`Spectrogram`, `Vocalization`,
`VocalDataset`), the array-format loader registry and the dataset
builder `from_arr_files`, together with shallow embeddings of
`songdeck.config.parse.parse` and `vak.config.converters.bool_from_str`
taken directly from the source files under src/.  -/

namespace Vak

/-- Modelled from the spec: the class `vak.dataset.classes.Spectrogram`
(its source module is absent from src/; only the test file imports it).
A thin value object wrapping one time-frequency array plus its axis
metadata; numeric entries are modelled as integers.  -/
structure Spectrogram where
  array : List (List Int)
  freq_bins : List Int
  time_bins : List Int
deriving Repr, DecidableEq

/-- Modelled from the spec: the class `vak.dataset.classes.Vocalization`
(source module absent from src/): one annotated recording unit.  The
spec names the third field `annotation`; it is shortened to `annot`
here.  Annotations are opaque pre-parsed values, hence the type
parameter `A`.  -/
structure Vocalization (A : Type) where
  spect_file : String
  spect : Option Spectrogram
  annot : Option A
deriving Repr, DecidableEq

/-- Modelled from the spec: the class `vak.dataset.classes.VocalDataset`
(source module absent from src/): an ordered, immutable-after-creation
collection of `Vocalization` entries.  -/
structure VocalDataset (A : Type) where
  voc_list : List (Vocalization A)
deriving Repr, DecidableEq

/-- Modelled from the spec: the stored payload of one array file, as
read by a format loader (spec section 4.1): the raw array plus its axis
metadata.  -/
structure ArrayFileContents where
  array : List (List Int)
  freq_bins : List Int
  time_bins : List Int
deriving Repr, DecidableEq

/-- A model of the read-only filesystem the builder works against:
`dirListing d` lists the file names inside directory `d` (in arbitrary
on-disk order) and `fileContents p` is the payload stored at path `p`,
or `none` when the file is missing or unreadable.  -/
structure FileSystem where
  dirListing : String → List String
  fileContents : String → Option ArrayFileContents

/-- Modelled from the spec: the error taxonomy of the builder (spec
section 7).  In the Python source each of these surfaces as an
exception raised by `from_arr_files`; `loadError` carries the offending
path.  -/
inductive BuildErr where
  | unsupportedFormat (fmt : String)
  | conflictingInputs
  | lengthMismatch
  | loadError (path : String)
deriving Repr, DecidableEq

/-- Equality test on `Except` values, used to evaluate the builder on
concrete inputs.  -/
instance {ε α : Type} [DecidableEq ε] [DecidableEq α] : DecidableEq (Except ε α) :=
  fun x y =>
    match x, y with
    | .ok a, .ok b =>
      if h : a = b then .isTrue (by rw [h]) else .isFalse (by intro hh; cases hh; exact h rfl)
    | .error e, .error f =>
      if h : e = f then .isTrue (by rw [h]) else .isFalse (by intro hh; cases hh; exact h rfl)
    | .ok _, .error _ => .isFalse (fun h => Except.noConfusion h)
    | .error _, .ok _ => .isFalse (fun h => Except.noConfusion h)

/-- Expected file suffix for a given array format name: format `mat`
reads `.mat` archives and format `npz` reads `.npz` archives.  -/
def formatExt (fmt : String) : String := "." ++ fmt

/-- Lexicographic comparison of character lists, by numeric character
code.  -/
def charListLe : List Char → List Char → Bool
  | [], _ => true
  | _ :: _, [] => false
  | a :: as, b :: bs =>
    if a.toNat < b.toNat then true
    else if b.toNat < a.toNat then false
    else charListLe as bs

/-- Lexicographic comparison of file names.  -/
def strLe (a b : String) : Bool := charListLe a.data b.data

/-- Lexicographic order on file names, as a proposition.  -/
def strLeP (a b : String) : Prop := strLe a b = true

instance : DecidableRel strLeP :=
  fun a b => instDecidableEqBool (strLe a b) true

/-- Suffix test on character lists, used to match file extensions.  -/
def listEndsWith (l tail : List Char) : Bool :=
  tail == l.drop (l.length - tail.length)

/-- Does the file name `p` carry the extension expected for array
format `fmt`?  -/
def matchesExt (fmt : String) (p : String) : Bool :=
  listEndsWith p.data (formatExt fmt).data

/-- A stored payload is well formed when the frequency axis has one
entry per array row and every row has one column per time-axis entry
(so the matrix is rectangular).  -/
def wellFormed (c : ArrayFileContents) : Bool :=
  (c.freq_bins.length == c.array.length) &&
  c.array.all (fun row => row.length == c.time_bins.length)

/-- Modelled from the spec: one archive-format loader (spec section
4.1): read the payload at `path`, failing with `loadError path` when
the file is missing or its payload is malformed.  Both supported
archive formats read the same modelled payload.  -/
def archiveLoader (fs : FileSystem) (path : String) : Except BuildErr Spectrogram :=
  match fs.fileContents path with
  | none => .error (.loadError path)
  | some c =>
    if wellFormed c then
      .ok { array := c.array, freq_bins := c.freq_bins, time_bins := c.time_bins }
    else .error (.loadError path)

/-- Modelled from the spec: the loader registry (spec section 4.1), a
mapping from recognized format names to loader functions; the fixed
enumerated set of format names is `mat` and `npz`.  -/
def loaders (fmt : String) : Option (FileSystem → String → Except BuildErr Spectrogram) :=
  if fmt = "mat" ∨ fmt = "npz" then some archiveLoader else none

/-- Lexicographic sort of file names, used by directory mode and map
mode to impose a deterministic order.  -/
def sortLex (l : List String) : List String :=
  List.insertionSort strLeP l

/-- How many of the three addressing-mode arguments were supplied.  -/
def countModes {A : Type} (d? : Option String) (f? : Option (List String))
    (m? : Option (List (String × A))) : Nat :=
  (if d?.isSome then 1 else 0) + (if f?.isSome then 1 else 0) +
    (if m?.isSome then 1 else 0)

/-- Look a key up in an association-list model of a Python dict.  -/
def lookupKey {A : Type} (k : String) : List (String × A) → Option A
  | [] => none
  | (k₀, v) :: rest => if k = k₀ then some v else lookupKey k rest

/-- Modelled from the spec: addressing-mode resolution into an ordered
file list (spec section 4.2).  Directory mode lists the files in
`array_dir` whose extension matches the expected suffix of the format
and sorts them lexicographically; file-list mode keeps the caller-given
order.  -/
def resolveFiles (fs : FileSystem) (fmt : String) :
    Option String → Option (List String) → List String
  | some d, _ =>
      sortLex ((fs.dirListing d).filter (fun p => matchesExt fmt p))
  | none, some fl => fl
  | none, none => []

/-- Modelled from the spec: resolution of one addressing mode into an
ordered list of (file, optional annotation) pairs (spec sections 4.2
and 8).  Map mode sorts the keys lexicographically and pairs each key
with its mapped value; the positional modes pair the resolved file list
index-by-index with `annot_list` when it is given, raising
`lengthMismatch` when the lengths disagree, and leave every annotation
absent when it is omitted.  -/
def resolvePairs {A : Type} (fs : FileSystem) (fmt : String)
    (array_dir : Option String) (array_files : Option (List String))
    (array_annot_map : Option (List (String × A))) (annot_list : Option (List A)) :
    Except BuildErr (List (String × Option A)) :=
  match array_annot_map with
  | some m =>
      .ok ((sortLex (m.map Prod.fst)).map (fun k => (k, lookupKey k m)))
  | none =>
      let files := resolveFiles fs fmt array_dir array_files
      match annot_list with
      | none => .ok (files.map (fun f => (f, none)))
      | some l =>
          if l.length ≠ files.length then .error .lengthMismatch
          else .ok (files.zip (l.map some))

/-- Eagerly load every resolved pair in order, all-or-nothing: the
first load failure aborts the whole build with the error of the loader.
-/
def buildVocList {A : Type} (load : String → Except BuildErr Spectrogram) :
    List (String × Option A) → Except BuildErr (List (Vocalization A))
  | [] => .ok []
  | (p, a) :: rest =>
    match load p with
    | .error e => .error e
    | .ok sp =>
      match buildVocList load rest with
      | .error e => .error e
      | .ok vs => .ok ({ spect_file := p, spect := some sp, annot := a } :: vs)

/-- Modelled from the spec: construction of the dataset from the
resolved pairs (spec section 4.2): with `load_spects` true each file is
passed to the loader and the `Spectrogram` attached; with it false the
`spect` field is left absent and only `spect_file` and the annotation
are populated.  -/
def buildPairs {A : Type} (load : String → Except BuildErr Spectrogram)
    (load_spects : Bool) (pairs : List (String × Option A)) :
    Except BuildErr (VocalDataset A) :=
  if load_spects then
    (buildVocList load pairs).map VocalDataset.mk
  else
    .ok ⟨pairs.map (fun pr => { spect_file := pr.1, spect := none, annot := pr.2 })⟩

/-- Modelled from the spec: the dataset builder
`vak.dataset.array.from_arr_files` (its source module is absent from
src/; only its unit tests are present).  The validation policy of spec
section 4.2 is applied in its stated order: 1. the format must be a key
of the loader registry, else `unsupportedFormat`; 2. exactly one
addressing mode may be supplied, and `array_annot_map` may not be
combined with `annot_list`, else `conflictingInputs`; 3. resolution may
raise `lengthMismatch`; then the dataset is built eagerly or lazily.  -/
def from_arr_files {A : Type} (fs : FileSystem) (array_format : String)
    (array_dir : Option String) (array_files : Option (List String))
    (array_annot_map : Option (List (String × A))) (annot_list : Option (List A))
    (load_spects : Bool) : Except BuildErr (VocalDataset A) :=
  match loaders array_format with
  | none => .error (.unsupportedFormat array_format)
  | some load =>
    if countModes array_dir array_files array_annot_map ≠ 1 then
      .error .conflictingInputs
    else if array_annot_map.isSome && annot_list.isSome then
      .error .conflictingInputs
    else
      match resolvePairs fs array_format array_dir array_files array_annot_map annot_list with
      | .error e => .error e
      | .ok pairs => buildPairs (load fs) load_spects pairs

/-!  Shallow embedding of `src/src/songdeck/config/parse.py` and
`src/src/vak/config/converters.py`.  Python runtime values and
exceptions are modelled explicitly: an exception class raised by the
embedded code is one constructor of `PyErr`.  -/

/-- The Python exception classes the embedded functions can raise.  -/
inductive PyErr where
  | valueError (msg : String)
  | nameError (nm : String)
  | typeError
  | fileNotFoundError
  | attributeError
deriving Repr, DecidableEq

/-- A small universe of Python runtime values, enough for the embedded
functions: booleans, strings, integers, `None` and opaque objects
(covering the config objects and a successfully constructed
namedtuple).  -/
inductive PyVal where
  | bool (b : Bool)
  | str (s : String)
  | int (n : Int)
  | none
  | obj
deriving Repr, DecidableEq

/-- The global names bound in the module `songdeck.config.parse`: its
four imports plus the two module-level definitions.  The module never
imports `os`.  Taken from lines 1 to 15 of
`src/src/songdeck/config/parse.py`.  -/
def parseModuleGlobals : List String :=
  ["ConfigParser", "namedtuple", "parse_data_config", "parse_spect_config",
   "ConfigTuple", "parse"]

/-- Python name resolution inside the module `songdeck.config.parse`:
evaluating a name that is not bound in the module raises `NameError`.  -/
def lookupGlobal (n : String) : Except PyErr Unit :=
  if n ∈ parseModuleGlobals then .ok () else .error (.nameError n)

/-- The six field names of the namedtuple `ConfigTuple`, from lines 7
to 12 of `src/src/songdeck/config/parse.py`.  -/
def configTupleFields : List String :=
  ["data", "spect_params", "train", "output", "models", "predict"]

/-- Calling a namedtuple class: Python raises `TypeError` unless one
argument per declared field is supplied.  -/
def callConfigTuple (args : List PyVal) : Except PyErr PyVal :=
  if args.length = configTupleFields.length then .ok .obj else .error .typeError

/-- The part of the parsed `.ini` file and of the out-of-scope config
collaborators that `parse` consults: which sections exist, and the
`mat_spect_files_path` attribute of the object built by
`parse_data_config`.  -/
structure IniConfig where
  has_data_section : Bool
  mat_spect_files_path : Option String
  has_spect_section : Bool

/-- The filesystem as `os.path.isfile` would see it.  -/
structure PyFileSystem where
  isfile : String → Bool

/-- Shallow embedding of `songdeck.config.parse.parse` (lines 15 to 43
of `src/src/songdeck/config/parse.py`), statement by statement: the
`.ini` extension check, then the expression `os.path.isfile` whose
evaluation resolves the module-global name `os` (unbound, so it raises
`NameError`), then the section handling, and finally the call
`ConfigTuple(data, spect_params)` with two arguments.  -/
def parse (pfs : PyFileSystem) (cfg : IniConfig) (config_file : String) :
    Except PyErr PyVal :=
  if ¬ (listEndsWith config_file.data ".ini".data) then
    .error (.valueError (config_file ++ " is not a valid config file, must have .ini extension"))
  else
    match lookupGlobal "os" with
    | .error e => .error e
    | .ok _ =>
      if ¬ pfs.isfile config_file then
        .error .fileNotFoundError
      else
        let data : Option PyVal := if cfg.has_data_section then some .obj else Option.none
        match data with
        | Option.none =>
          -- the attribute access `data.mat_spect_files_path` on `None`
          .error .attributeError
        | some d =>
          match cfg.mat_spect_files_path with
          | Option.none =>
            if ¬ cfg.has_spect_section then
              .error (.valueError "No annotation_path specified in config_file ...")
            else callConfigTuple [d, .obj]
          | some _ => callConfigTuple [d, .none]

/-- Shallow embedding of `distutils.util.strtobool`, called by
`bool_from_str`: recognized truthy strings map to 1, falsy strings to
0, anything else raises `ValueError`.  -/
def strtobool (s : String) : Except PyErr Nat :=
  let v : String := ⟨s.data.map Char.toLower⟩
  if v ∈ ["y", "yes", "t", "true", "on", "1"] then .ok 1
  else if v ∈ ["n", "no", "f", "false", "off", "0"] then .ok 0
  else .error (.valueError ("invalid truth value " ++ s))

/-- Shallow embedding of `vak.config.converters.bool_from_str` (lines 7
to 11 of `src/src/vak/config/converters.py`): a `bool` is returned
unchanged, a `str` goes through `strtobool`, and any other type falls
off the end of the function, which in Python returns `None`.  -/
def bool_from_str (value : PyVal) : Except PyErr PyVal :=
  match value with
  | .bool b => .ok (.bool b)
  | .str s => (strtobool s).map (fun n => .bool (decide (n ≠ 0)))
  | _ => .ok .none

/-!  Concrete fixtures used by the witness theorems.  -/

/-- A two-file test directory: directory `spect` lists `b.mat`,
`a.mat` and `c.txt` in unsorted on-disk order, and the two `.mat`
files hold well-formed payloads.  -/
def exFS : FileSystem where
  dirListing := fun d => if d = "spect" then ["b.mat", "a.mat", "c.txt"] else []
  fileContents := fun p =>
    if p = "a.mat" then some ⟨[[1, 2]], [5], [3, 4]⟩
    else if p = "b.mat" then some ⟨[[7, 8], [9, 10]], [5, 6], [3, 4]⟩
    else none

/-- A filesystem whose directory `spect` lists one matching file whose
payload is missing, so that every eager load fails.  -/
def brokenFS : FileSystem where
  dirListing := fun d => if d = "spect" then ["a.mat"] else []
  fileContents := fun _ => none

/-- An empty filesystem.  -/
def emptyFS : FileSystem where
  dirListing := fun _ => []
  fileContents := fun _ => none

/-- A fixture for `parse`: no file exists and the parsed config is
empty.  -/
def exPyFS : PyFileSystem where
  isfile := fun _ => false

/-- A fixture config for `parse`.  -/
def exCfg : IniConfig where
  has_data_section := false
  mat_spect_files_path := Option.none
  has_spect_section := false

/-!  Helper lemmas about the order used for sorting and about the
building blocks of the builder.  -/

theorem charListLe_total (a b : List Char) :
    charListLe a b = true ∨ charListLe b a = true := by
  induction a generalizing b with
  | nil => left; rfl
  | cons x xs ih =>
    cases b with
    | nil => right; rfl
    | cons y ys =>
      by_cases h1 : x.toNat < y.toNat
      · left; simp [charListLe, h1]
      · by_cases h2 : y.toNat < x.toNat
        · right; simp [charListLe, h1, h2]
        · rcases ih ys with h | h
          · left; simp [charListLe, h1, h2, h]
          · right; simp [charListLe, h1, h2, h]

theorem charListLe_trans {a b c : List Char} (hab : charListLe a b = true)
    (hbc : charListLe b c = true) : charListLe a c = true := by
  induction a generalizing b c with
  | nil => rfl
  | cons x xs ih =>
    cases b with
    | nil => simp [charListLe] at hab
    | cons y ys =>
      cases c with
      | nil => simp [charListLe] at hbc
      | cons z zs =>
        simp only [charListLe] at hab hbc ⊢
        split_ifs at hab hbc ⊢ with h1 h2 h3 h4 h5 h6 <;>
          first
            | rfl
            | omega
            | (exact absurd hab (by decide))
            | (exact absurd hbc (by decide))
            | (exact ih hab hbc)

instance : IsTotal String strLeP :=
  ⟨fun a b => charListLe_total a.data b.data⟩

instance : IsTrans String strLeP :=
  ⟨fun _ _ _ hab hbc => charListLe_trans hab hbc⟩

theorem sortLex_sorted (l : List String) : List.Sorted strLeP (sortLex l) :=
  List.sorted_insertionSort strLeP l

theorem sortLex_perm (l : List String) : (sortLex l).Perm l :=
  List.perm_insertionSort strLeP l

theorem sortLex_length (l : List String) : (sortLex l).length = l.length :=
  (sortLex_perm l).length_eq

theorem mem_sortLex {x : String} {l : List String} : x ∈ sortLex l ↔ x ∈ l :=
  (sortLex_perm l).mem_iff

theorem loaders_eq_some {fmt : String}
    {load : FileSystem → String → Except BuildErr Spectrogram}
    (h : loaders fmt = some load) :
    (fmt = "mat" ∨ fmt = "npz") ∧ load = archiveLoader := by
  unfold loaders at h
  by_cases hf : fmt = "mat" ∨ fmt = "npz"
  · rw [if_pos hf] at h
    cases h
    exact ⟨hf, rfl⟩
  · rw [if_neg hf] at h
    cases h

theorem archiveLoader_ok_wf {fs : FileSystem} {p : String} {sp : Spectrogram}
    (h : archiveLoader fs p = .ok sp) :
    sp.freq_bins.length = sp.array.length ∧
    ∀ row ∈ sp.array, row.length = sp.time_bins.length := by
  unfold archiveLoader at h
  split at h
  · cases h
  · rename_i c hc
    split at h
    · rename_i hw
      cases h
      unfold wellFormed at hw
      simp only [Bool.and_eq_true, beq_iff_eq, List.all_eq_true] at hw
      exact ⟨hw.1, fun row hr => hw.2 row hr⟩
    · cases h

theorem archiveLoader_error {fs : FileSystem} {p : String} {e : BuildErr}
    (h : archiveLoader fs p = .error e) : e = .loadError p := by
  unfold archiveLoader at h
  split at h
  · cases h
    rfl
  · rename_i c hc
    split at h
    · cases h
    · cases h
      rfl

theorem buildVocList_ok_pairs {A : Type} {load : String → Except BuildErr Spectrogram}
    {ps : List (String × Option A)} {vs : List (Vocalization A)}
    (h : buildVocList load ps = .ok vs) :
    vs.map (fun v => (v.spect_file, v.annot)) = ps := by
  induction ps generalizing vs with
  | nil =>
    unfold buildVocList at h
    cases h
    rfl
  | cons pr rest ih =>
    obtain ⟨p, a⟩ := pr
    unfold buildVocList at h
    cases hl : load p with
    | error e => rw [hl] at h; cases h
    | ok sp =>
      rw [hl] at h
      cases hr : buildVocList load rest with
      | error e => rw [hr] at h; cases h
      | ok vs₀ =>
        rw [hr] at h
        cases h
        simp [ih hr]

theorem buildVocList_ok_spect {A : Type} {load : String → Except BuildErr Spectrogram}
    {ps : List (String × Option A)} {vs : List (Vocalization A)}
    (h : buildVocList load ps = .ok vs) :
    ∀ v ∈ vs, ∃ sp, v.spect = some sp ∧ load v.spect_file = .ok sp := by
  induction ps generalizing vs with
  | nil =>
    unfold buildVocList at h
    cases h
    intro v hv
    cases hv
  | cons pr rest ih =>
    obtain ⟨p, a⟩ := pr
    unfold buildVocList at h
    cases hl : load p with
    | error e => rw [hl] at h; cases h
    | ok sp =>
      rw [hl] at h
      cases hr : buildVocList load rest with
      | error e => rw [hr] at h; cases h
      | ok vs₀ =>
        rw [hr] at h
        cases h
        intro v hv
        rcases List.mem_cons.mp hv with hv | hv
        · subst hv
          exact ⟨sp, rfl, hl⟩
        · exact ih hr v hv

theorem buildVocList_fail {A : Type} {load : String → Except BuildErr Spectrogram}
    {ps : List (String × Option A)}
    (h : ∃ pr ∈ ps, ∃ e, load pr.1 = .error e) :
    ∃ q e, q ∈ ps.map Prod.fst ∧ load q = .error e ∧
      buildVocList load ps = (.error e : Except BuildErr (List (Vocalization A))) := by
  induction ps with
  | nil => rcases h with ⟨pr, hpr, _⟩; cases hpr
  | cons pr rest ih =>
    obtain ⟨p, a⟩ := pr
    cases hl : load p with
    | error e =>
      refine ⟨p, e, List.mem_cons_self _ _, hl, ?_⟩
      unfold buildVocList
      rw [hl]
    | ok sp =>
      rcases h with ⟨pr₀, hpr₀, e₀, he₀⟩
      rcases List.mem_cons.mp hpr₀ with hc | hc
      · subst hc
        rw [hl] at he₀
        cases he₀
      · rcases ih ⟨pr₀, hc, e₀, he₀⟩ with ⟨q, e, hq, hqe, hrest⟩
        refine ⟨q, e, List.mem_cons_of_mem _ hq, hqe, ?_⟩
        unfold buildVocList
        rw [hl, hrest]

theorem buildPairs_ok_pairs {A : Type} {load : String → Except BuildErr Spectrogram}
    {ls : Bool} {ps : List (String × Option A)} {ds : VocalDataset A}
    (h : buildPairs load ls ps = .ok ds) :
    ds.voc_list.map (fun v => (v.spect_file, v.annot)) = ps := by
  unfold buildPairs at h
  cases ls with
  | false =>
    rw [if_neg (by simp)] at h
    cases h
    simp only [List.map_map]
    exact List.map_id ps
  | true =>
    rw [if_pos rfl] at h
    cases hb : buildVocList load ps with
    | error e => rw [hb] at h; cases h
    | ok vs =>
      rw [hb] at h
      cases h
      exact buildVocList_ok_pairs hb

theorem voc_map_fst {A : Type} {ds : VocalDataset A} {pairs : List (String × Option A)}
    (hmap : ds.voc_list.map (fun v => (v.spect_file, v.annot)) = pairs) :
    ds.voc_list.map (fun v => v.spect_file) = pairs.map Prod.fst := by
  rw [← hmap, List.map_map]
  rfl

theorem voc_map_annot {A : Type} {ds : VocalDataset A} {pairs : List (String × Option A)}
    (hmap : ds.voc_list.map (fun v => (v.spect_file, v.annot)) = pairs) :
    ds.voc_list.map (fun v => v.annot) = pairs.map Prod.snd := by
  rw [← hmap, List.map_map]
  rfl

theorem buildPairs_false_spect {A : Type} {load : String → Except BuildErr Spectrogram}
    {ps : List (String × Option A)} {ds : VocalDataset A}
    (h : buildPairs load false ps = .ok ds) :
    ∀ v ∈ ds.voc_list, v.spect = none := by
  unfold buildPairs at h
  rw [if_neg (by simp)] at h
  cases h
  intro v hv
  rcases List.mem_map.mp hv with ⟨pr, _, hpr⟩
  cases hpr
  rfl

theorem buildPairs_true_spect {A : Type} {load : String → Except BuildErr Spectrogram}
    {ps : List (String × Option A)} {ds : VocalDataset A}
    (h : buildPairs load true ps = .ok ds) :
    ∀ v ∈ ds.voc_list, ∃ sp, v.spect = some sp ∧ load v.spect_file = .ok sp := by
  unfold buildPairs at h
  rw [if_pos rfl] at h
  cases hb : buildVocList load ps with
  | error e => rw [hb] at h; cases h
  | ok vs =>
    rw [hb] at h
    cases h
    exact buildVocList_ok_spect hb

theorem from_arr_files_ok_inv {A : Type} {fs : FileSystem} {fmt : String}
    {d? : Option String} {f? : Option (List String)} {m? : Option (List (String × A))}
    {al : Option (List A)} {ls : Bool} {ds : VocalDataset A}
    (h : from_arr_files fs fmt d? f? m? al ls = .ok ds) :
    (fmt = "mat" ∨ fmt = "npz") ∧ countModes d? f? m? = 1 ∧
    (m?.isSome && al.isSome) = false ∧
    ∃ pairs, resolvePairs fs fmt d? f? m? al = .ok pairs ∧
      buildPairs (archiveLoader fs) ls pairs = .ok ds := by
  unfold from_arr_files at h
  split at h
  · cases h
  · rename_i load hload
    obtain ⟨hf, hld⟩ := loaders_eq_some hload
    subst hld
    split at h
    · cases h
    · rename_i hcm
      split at h
      · cases h
      · rename_i hma
        split at h
        · cases h
        · rename_i pairs hr
          exact ⟨hf, by omega, by simpa using hma, pairs, hr, h⟩

theorem lookupKey_mem_fst {A : Type} {m : List (String × A)} {k : String}
    (h : k ∈ m.map Prod.fst) : ∃ a, lookupKey k m = some a := by
  induction m with
  | nil => cases h
  | cons pr rest ih =>
    obtain ⟨k₀, v⟩ := pr
    by_cases hk : k = k₀
    · exact ⟨v, by simp [lookupKey, hk]⟩
    · have hrest : k ∈ rest.map Prod.fst := by
        simp only [List.map_cons, List.mem_cons] at h
        rcases h with h | h
        · exact absurd h hk
        · exact h
      rcases ih hrest with ⟨a, ha⟩
      exact ⟨a, by simp [lookupKey, hk, ha]⟩

theorem lookupKey_mem {A : Type} {m : List (String × A)}
    (hnd : (m.map Prod.fst).Nodup) {k : String} {a : A}
    (hm : (k, a) ∈ m) : lookupKey k m = some a := by
  induction m with
  | nil => cases hm
  | cons pr rest ih =>
    obtain ⟨k₀, v⟩ := pr
    simp only [List.map_cons, List.nodup_cons] at hnd
    rcases List.mem_cons.mp hm with hc | hc
    · cases hc
      simp [lookupKey]
    · have hk : k ≠ k₀ := by
        intro he
        subst he
        exact hnd.1 (List.mem_map_of_mem Prod.fst hc)
      simp only [lookupKey, if_neg hk]
      exact ih hnd.2 hc

theorem from_arr_files_eq_buildPairs {A : Type} {fs : FileSystem} {fmt : String}
    {d? : Option String} {f? : Option (List String)} {m? : Option (List (String × A))}
    {al : Option (List A)} {pairs : List (String × Option A)} (ls : Bool)
    (hfmt : fmt = "mat" ∨ fmt = "npz")
    (hmode : countModes d? f? m? = 1)
    (hma : (m?.isSome && al.isSome) = false)
    (hres : resolvePairs fs fmt d? f? m? al = .ok pairs) :
    from_arr_files fs fmt d? f? m? al ls = buildPairs (archiveLoader fs) ls pairs := by
  have hlo : loaders fmt = some archiveLoader := by
    unfold loaders
    rw [if_pos hfmt]
  unfold from_arr_files
  split
  · rename_i hload
    rw [hlo] at hload
    cases hload
  · rename_i load hload
    rw [hlo] at hload
    injection hload with hload
    subst hload
    split
    · rename_i hcm
      exact absurd hmode hcm
    · split
      · rename_i hcond
        rw [hma] at hcond
        cases hcond
      · split
        · rename_i e heq
          rw [hres] at heq
          cases heq
        · rename_i ps heq
          rw [hres] at heq
          injection heq with heq
          rw [heq]

theorem from_arr_files_eq_resolveErr {A : Type} {fs : FileSystem} {fmt : String}
    {d? : Option String} {f? : Option (List String)} {m? : Option (List (String × A))}
    {al : Option (List A)} {e : BuildErr} (ls : Bool)
    (hfmt : fmt = "mat" ∨ fmt = "npz")
    (hmode : countModes d? f? m? = 1)
    (hma : (m?.isSome && al.isSome) = false)
    (hres : resolvePairs fs fmt d? f? m? al = .error e) :
    from_arr_files fs fmt d? f? m? al ls = .error e := by
  have hlo : loaders fmt = some archiveLoader := by
    unfold loaders
    rw [if_pos hfmt]
  unfold from_arr_files
  split
  · rename_i hload
    rw [hlo] at hload
    cases hload
  · rename_i load hload
    rw [hlo] at hload
    injection hload with hload
    subst hload
    split
    · rename_i hcm
      exact absurd hmode hcm
    · split
      · rename_i hcond
        rw [hma] at hcond
        cases hcond
      · split
        · rename_i e₀ heq
          rw [hres] at heq
          injection heq with heq
          rw [heq]
        · rename_i ps heq
          rw [hres] at heq
          cases heq

/-!  The claims.  -/

/-- C4: for every call to `from_arr_files` whose `array_format` is not
a key of the loader registry, the builder raises `UnsupportedFormat`
before performing any filesystem I/O (the result is the same for every
filesystem), for every combination of the other arguments.  -/
theorem C4_unsupported_format {A : Type} (fs : FileSystem) (fmt : String)
    (d? : Option String) (f? : Option (List String)) (m? : Option (List (String × A)))
    (al : Option (List A)) (ls : Bool)
    (hfmt : ¬(fmt = "mat" ∨ fmt = "npz")) :
    from_arr_files fs fmt d? f? m? al ls = .error (.unsupportedFormat fmt) := by
  have hlo : loaders fmt = none := by
    unfold loaders
    rw [if_neg hfmt]
  unfold from_arr_files
  split
  · rfl
  · rename_i load hload
    rw [hlo] at hload
    cases hload

/-- C4 witness: the format `npy` has no registered loader, so the call
of the unit test `test_bad_inputs_raise` fails with
`unsupportedFormat`.  -/
theorem C4_witness :
    from_arr_files emptyFS "npy" (some "spect") none
      (none : Option (List (String × String))) none true =
      .error (.unsupportedFormat "npy") :=
  C4_unsupported_format emptyFS "npy" (some "spect") none none none true (by decide)

/-- C1 counterexample: a call that supplies two addressing modes
(`array_dir` and `array_files`) together with the unregistered format
`npy` raises `unsupportedFormat`, not `conflictingInputs`: the format
check of validation step 1 precedes the exclusivity check of step 2, so
the claim as stated (which quantifies over every call supplying two or
more modes, with no condition on `array_format`) fails.  -/
theorem C1_counterexample :
    from_arr_files emptyFS "npy" (some "spect") (some ["a.mat"])
        (none : Option (List (String × String))) none true =
      .error (.unsupportedFormat "npy") ∧
    ¬ (from_arr_files emptyFS "npy" (some "spect") (some ["a.mat"])
        (none : Option (List (String × String))) none true =
      .error .conflictingInputs) := by
  constructor
  · rfl
  · decide

/-- C1 (amended): for every call to `from_arr_files` whose
`array_format` is a registered format and that supplies two or more of
`array_dir`, `array_files`, `array_annot_map`, or that supplies
`array_annot_map` together with `annot_list`, the builder raises
`ConflictingInputs` before any addressing-mode resolution (the result
is the same for every filesystem), regardless of the value of
`load_spects`.  -/
theorem C1_amended {A : Type} (fs : FileSystem) (fmt : String) (d? : Option String)
    (f? : Option (List String)) (m? : Option (List (String × A))) (al : Option (List A))
    (ls : Bool)
    (hfmt : fmt = "mat" ∨ fmt = "npz")
    (hconf : 2 ≤ countModes d? f? m? ∨ (m?.isSome = true ∧ al.isSome = true)) :
    from_arr_files fs fmt d? f? m? al ls = .error .conflictingInputs := by
  have hlo : loaders fmt = some archiveLoader := by
    unfold loaders
    rw [if_pos hfmt]
  unfold from_arr_files
  split
  · rename_i hload
    rw [hlo] at hload
    cases hload
  · rename_i load hload
    split
    · rfl
    · rename_i hcm
      rcases hconf with h2 | ⟨hm, ha⟩
      · omega
      · split
        · rfl
        · rename_i hcond
          rw [hm, ha] at hcond
          simp at hcond

/-- C1 witness: with the registered format `mat`, supplying both
`array_dir` and `array_files` raises `conflictingInputs`, under both
values of `load_spects`.  -/
theorem C1_witness :
    from_arr_files exFS "mat" (some "spect") (some ["a.mat"])
        (none : Option (List (String × String))) none true =
      .error .conflictingInputs ∧
    from_arr_files exFS "mat" (some "spect") (some ["a.mat"])
        (none : Option (List (String × String))) none false =
      .error .conflictingInputs :=
  ⟨C1_amended exFS "mat" (some "spect") (some ["a.mat"]) none none true
      (Or.inl rfl) (Or.inl (by decide)),
   C1_amended exFS "mat" (some "spect") (some ["a.mat"]) none none false
      (Or.inl rfl) (Or.inl (by decide))⟩

/-- C7: for every entry of a dataset built with `load_spects = true`,
the attached `Spectrogram` satisfies that the length of `freq_bins`
equals the number of rows of the array and the length of `time_bins`
equals the number of columns of the array (every row has that many
entries).  -/
theorem C7_loaded_invariant {A : Type} (fs : FileSystem) (fmt : String)
    (d? : Option String) (f? : Option (List String)) (m? : Option (List (String × A)))
    (al : Option (List A)) (ds : VocalDataset A)
    (hok : from_arr_files fs fmt d? f? m? al true = .ok ds) :
    ∀ v ∈ ds.voc_list, ∃ sp, v.spect = some sp ∧
      sp.freq_bins.length = sp.array.length ∧
      ∀ row ∈ sp.array, row.length = sp.time_bins.length := by
  obtain ⟨_, _, _, pairs, _, hbp⟩ := from_arr_files_ok_inv hok
  intro v hv
  obtain ⟨sp, hsp, hload⟩ := buildPairs_true_spect hbp v hv
  obtain ⟨h1, h2⟩ := archiveLoader_ok_wf hload
  exact ⟨sp, hsp, h1, h2⟩

/-- C2: for every directory of array files of the requested format and
every successful build over it, the returned dataset has one entry per
matching file, ordered by lexicographically sorted filename, with
annotation `i` paired positionally to the `i`-th sorted filename, and
annotations absent on every entry when `annot_list` is omitted.  (When
`annot_list` is supplied, success forces its length to equal the file
count.)  -/
theorem C2_directory_mode {A : Type} (fs : FileSystem) (fmt : String) (d : String)
    (al : Option (List A)) (ls : Bool) (ds : VocalDataset A)
    (hok : from_arr_files fs fmt (some d) none (none : Option (List (String × A))) al ls =
      .ok ds) :
    ds.voc_list.map (fun v => v.spect_file) = resolveFiles fs fmt (some d) none ∧
    List.Sorted strLeP (ds.voc_list.map (fun v => v.spect_file)) ∧
    ds.voc_list.length = ((fs.dirListing d).filter (fun p => matchesExt fmt p)).length ∧
    ds.voc_list.map (fun v => v.annot) =
      (match al with
       | none =>
          List.replicate ((fs.dirListing d).filter (fun p => matchesExt fmt p)).length none
       | some l => l.map some) := by
  obtain ⟨hf, hcm, hma, pairs, hres, hbp⟩ := from_arr_files_ok_inv hok
  have hmap := buildPairs_ok_pairs hbp
  have hfst := voc_map_fst hmap
  have hsnd := voc_map_annot hmap
  have hlen : ds.voc_list.length = pairs.length := by
    rw [← List.length_map ds.voc_list (fun v => v.spect_file), hfst,
      List.length_map]
  have hrf : resolveFiles fs fmt (some d) none =
      sortLex ((fs.dirListing d).filter (fun p => matchesExt fmt p)) := rfl
  cases al with
  | none =>
    have hr : resolvePairs fs fmt (some d) none (none : Option (List (String × A))) none =
        .ok ((resolveFiles fs fmt (some d) none).map (fun f => (f, none))) := rfl
    rw [hr] at hres
    injection hres with hres
    subst hres
    have hfst₂ : ds.voc_list.map (fun v => v.spect_file) =
        resolveFiles fs fmt (some d) none := by
      rw [hfst, List.map_map]
      exact List.map_id _
    refine ⟨hfst₂, ?_, ?_, ?_⟩
    · rw [hfst₂, hrf]
      exact sortLex_sorted _
    · rw [hlen, List.length_map, hrf]
      exact sortLex_length _
    · rw [hsnd, List.map_map]
      have : ((fun pr : String × Option A => pr.2) ∘ fun f => (f, none)) =
          (fun _ : String => (none : Option A)) := rfl
      rw [this, List.map_const', hrf, sortLex_length]
  | some l =>
    have hr : resolvePairs fs fmt (some d) none (none : Option (List (String × A)))
        (some l) =
        (if l.length ≠ (resolveFiles fs fmt (some d) none).length then
          .error .lengthMismatch
         else .ok ((resolveFiles fs fmt (some d) none).zip (l.map some))) := rfl
    rw [hr] at hres
    split at hres
    · cases hres
    · rename_i hlen₂
      have hlen₃ : l.length = (resolveFiles fs fmt (some d) none).length :=
        not_not.mp hlen₂
      injection hres with hres
      subst hres
      have hfst₂ : ds.voc_list.map (fun v => v.spect_file) =
          resolveFiles fs fmt (some d) none := by
        rw [hfst]
        exact List.map_fst_zip _ _ (by rw [List.length_map]; omega)
      refine ⟨hfst₂, ?_, ?_, ?_⟩
      · rw [hfst₂, hrf]
        exact sortLex_sorted _
      · have hl₄ : ds.voc_list.length = (resolveFiles fs fmt (some d) none).length := by
          rw [← List.length_map ds.voc_list (fun v => v.spect_file), hfst₂]
        rw [hl₄, hrf]
        exact sortLex_length _
      · rw [hsnd]
        exact List.map_snd_zip _ _ (by rw [List.length_map]; omega)

/-- C2 witness: the fixture directory lists `b.mat`, `a.mat`, `c.txt`
unsorted; the eager build with two positional annotations returns the
two `.mat` entries in sorted order with positional pairing.  -/
theorem C2_witness :
    (VocalDataset.mk
      [⟨"a.mat", some ⟨[[1, 2]], [5], [3, 4]⟩, some "A"⟩,
       ⟨"b.mat", some ⟨[[7, 8], [9, 10]], [5, 6], [3, 4]⟩, some "B"⟩]).voc_list.map
        (fun v => v.spect_file) = resolveFiles exFS "mat" (some "spect") none ∧
    List.Sorted strLeP ((VocalDataset.mk
      [⟨"a.mat", some ⟨[[1, 2]], [5], [3, 4]⟩, some "A"⟩,
       ⟨"b.mat", some ⟨[[7, 8], [9, 10]], [5, 6], [3, 4]⟩, some "B"⟩]).voc_list.map
        (fun v => v.spect_file)) ∧
    (VocalDataset.mk
      [⟨"a.mat", some ⟨[[1, 2]], [5], [3, 4]⟩, some "A"⟩,
       ⟨"b.mat", some ⟨[[7, 8], [9, 10]], [5, 6], [3, 4]⟩, some "B"⟩]).voc_list.length =
      ((exFS.dirListing "spect").filter (fun p => matchesExt "mat" p)).length ∧
    (VocalDataset.mk
      [⟨"a.mat", some ⟨[[1, 2]], [5], [3, 4]⟩, some "A"⟩,
       ⟨"b.mat", some ⟨[[7, 8], [9, 10]], [5, 6], [3, 4]⟩, some "B"⟩]).voc_list.map
        (fun v => v.annot) = ["A", "B"].map some :=
  C2_directory_mode exFS "mat" "spect" (some ["A", "B"]) true _ (by decide)

/-- C3: for every fixed input on which the eager build succeeds, the
lazy build also succeeds, every entry of the lazy dataset has `spect`
absent, and its sequence of (spect_file, annotation) pairs is identical
in order to that of the eager dataset.  -/
theorem C3_lazy_matches_eager {A : Type} (fs : FileSystem) (fmt : String)
    (d? : Option String) (f? : Option (List String)) (m? : Option (List (String × A)))
    (al : Option (List A)) (ds₁ : VocalDataset A)
    (hok : from_arr_files fs fmt d? f? m? al true = .ok ds₁) :
    ∃ ds₀, from_arr_files fs fmt d? f? m? al false = .ok ds₀ ∧
      (∀ v ∈ ds₀.voc_list, v.spect = none) ∧
      ds₀.voc_list.map (fun v => (v.spect_file, v.annot)) =
        ds₁.voc_list.map (fun v => (v.spect_file, v.annot)) := by
  obtain ⟨hf, hcm, hma, pairs, hres, hbp⟩ := from_arr_files_ok_inv hok
  have heq := from_arr_files_eq_buildPairs false hf hcm hma hres
  refine ⟨⟨pairs.map (fun pr => ⟨pr.1, none, pr.2⟩)⟩, ?_, ?_, ?_⟩
  · rw [heq]
    unfold buildPairs
    rw [if_neg (by simp)]
  · intro v hv
    obtain ⟨pr, _, hpr⟩ := List.mem_map.mp hv
    subst hpr
    rfl
  · rw [buildPairs_ok_pairs hbp]
    simp only [List.map_map]
    exact List.map_id pairs

/-- C3 witness: on the fixture directory the eager build succeeds, and
the lazy build yields the same (file, annotation) pairs with no loaded
spectrograms.  -/
theorem C3_witness :
    ∃ ds₀, from_arr_files exFS "mat" (some "spect") none
        (none : Option (List (String × String))) (some ["A", "B"]) false = .ok ds₀ ∧
      (∀ v ∈ ds₀.voc_list, v.spect = none) ∧
      ds₀.voc_list.map (fun v => (v.spect_file, v.annot)) =
        (VocalDataset.mk
          [⟨"a.mat", some ⟨[[1, 2]], [5], [3, 4]⟩, some "A"⟩,
           ⟨"b.mat", some ⟨[[7, 8], [9, 10]], [5, 6], [3, 4]⟩, some "B"⟩]).voc_list.map
          (fun v => (v.spect_file, v.annot)) :=
  C3_lazy_matches_eager exFS "mat" (some "spect") none none (some ["A", "B"]) _ (by decide)

/-- C5: for every successful call in map mode (keys unique, as for a
Python dict), the dataset has one entry per map key, ordered by
lexicographically sorted key, and each entry carries exactly the
annotation the map assigns to its `spect_file`.  -/
theorem C5_map_mode {A : Type} (fs : FileSystem) (fmt : String)
    (m : List (String × A)) (ls : Bool) (ds : VocalDataset A)
    (hnd : (m.map Prod.fst).Nodup)
    (hok : from_arr_files fs fmt none none (some m) none ls = .ok ds) :
    ds.voc_list.map (fun v => v.spect_file) = sortLex (m.map Prod.fst) ∧
    List.Sorted strLeP (ds.voc_list.map (fun v => v.spect_file)) ∧
    ds.voc_list.length = m.length ∧
    ∀ v ∈ ds.voc_list, ∀ a : A, (v.spect_file, a) ∈ m → v.annot = some a := by
  obtain ⟨hf, hcm, hma, pairs, hres, hbp⟩ := from_arr_files_ok_inv hok
  have hr : resolvePairs fs fmt none none (some m) none =
      .ok ((sortLex (m.map Prod.fst)).map (fun k => (k, lookupKey k m))) := rfl
  rw [hr] at hres
  injection hres with hres
  subst hres
  have hmap := buildPairs_ok_pairs hbp
  have hfst : ds.voc_list.map (fun v => v.spect_file) = sortLex (m.map Prod.fst) := by
    rw [voc_map_fst hmap, List.map_map]
    exact List.map_id _
  refine ⟨hfst, ?_, ?_, ?_⟩
  · rw [hfst]
    exact sortLex_sorted _
  · rw [← List.length_map ds.voc_list (fun v => v.spect_file), hfst, sortLex_length,
      List.length_map]
  · intro v hv a hma₂
    have hvmem : (v.spect_file, v.annot) ∈
        (sortLex (m.map Prod.fst)).map (fun k => (k, lookupKey k m)) := by
      rw [← hmap]
      exact List.mem_map_of_mem _ hv
    obtain ⟨k, _, hkeq⟩ := List.mem_map.mp hvmem
    injection hkeq with h1 h2
    subst h1
    rw [← h2]
    exact lookupKey_mem hnd hma₂

/-- C5 witness: the map with keys `y.mat` and `x.mat` yields two
entries sorted as `x.mat`, `y.mat`, each carrying its mapped
annotation.  -/
theorem C5_witness :
    (VocalDataset.mk
      [⟨"x.mat", none, some "Ann1"⟩, ⟨"y.mat", none, some "Ann2"⟩]).voc_list.map
        (fun v => v.spect_file) =
      sortLex ([("y.mat", "Ann2"), ("x.mat", "Ann1")].map Prod.fst) ∧
    List.Sorted strLeP ((VocalDataset.mk
      [⟨"x.mat", none, some "Ann1"⟩, ⟨"y.mat", none, some "Ann2"⟩]).voc_list.map
        (fun v => v.spect_file)) ∧
    (VocalDataset.mk
      [⟨"x.mat", none, some "Ann1"⟩, ⟨"y.mat", none, some "Ann2"⟩]).voc_list.length =
      [("y.mat", "Ann2"), ("x.mat", "Ann1")].length ∧
    ∀ v ∈ (VocalDataset.mk
      [⟨"x.mat", none, some "Ann1"⟩, ⟨"y.mat", none, some "Ann2"⟩]).voc_list,
      ∀ a : String, (v.spect_file, a) ∈ [("y.mat", "Ann2"), ("x.mat", "Ann1")] →
        v.annot = some a :=
  C5_map_mode emptyFS "mat" [("y.mat", "Ann2"), ("x.mat", "Ann1")] false _
    (by decide) (by decide)

/-- C6: in directory or file-list mode, a given annotation list that is
non-empty and whose length differs from the resolved file count makes
the builder raise `LengthMismatch` (for every filesystem contents, so
before any loader call); and when `annot_list` is omitted, every entry
of a successful build has its annotation absent.  -/
theorem C6_positional_annotations {A : Type} (fs : FileSystem) (fmt : String)
    (d? : Option String) (f? : Option (List String)) (al : Option (List A)) (ls : Bool)
    (hfmt : fmt = "mat" ∨ fmt = "npz")
    (hmode : countModes d? f? (none : Option (List (String × A))) = 1) :
    (∀ l, al = some l → l ≠ [] → l.length ≠ (resolveFiles fs fmt d? f?).length →
       from_arr_files fs fmt d? f? (none : Option (List (String × A))) al ls =
         .error .lengthMismatch) ∧
    (al = none →
       ∀ ds, from_arr_files fs fmt d? f? (none : Option (List (String × A))) al ls =
         .ok ds →
       ∀ v ∈ ds.voc_list, v.annot = none) := by
  constructor
  · intro l hal _ hlen
    subst hal
    refine from_arr_files_eq_resolveErr ls hfmt hmode (by simp) ?_
    have hr : resolvePairs fs fmt d? f? (none : Option (List (String × A))) (some l) =
        (if l.length ≠ (resolveFiles fs fmt d? f?).length then
          .error .lengthMismatch
         else .ok ((resolveFiles fs fmt d? f?).zip (l.map some))) := rfl
    rw [hr, if_pos hlen]
  · intro hal ds hok v hv
    subst hal
    obtain ⟨_, _, _, pairs, hres, hbp⟩ := from_arr_files_ok_inv hok
    have hr : resolvePairs fs fmt d? f? (none : Option (List (String × A))) none =
        .ok ((resolveFiles fs fmt d? f?).map (fun f => (f, none))) := rfl
    rw [hr] at hres
    injection hres with hres
    subst hres
    have hmap := buildPairs_ok_pairs hbp
    have hvmem : (v.spect_file, v.annot) ∈
        (resolveFiles fs fmt d? f?).map (fun f => (f, (none : Option A))) := by
      rw [← hmap]
      exact List.mem_map_of_mem _ hv
    obtain ⟨f, _, heq⟩ := List.mem_map.mp hvmem
    injection heq with _ h2
    exact h2.symm

/-- C6 witness: over the fixture directory (two matching files) a
one-element annotation list raises `lengthMismatch`, and a build with
no annotation list leaves every annotation absent.  -/
theorem C6_witness :
    from_arr_files exFS "mat" (some "spect") none
        (none : Option (List (String × String))) (some ["A"]) true =
      .error .lengthMismatch ∧
    ∀ v ∈ (VocalDataset.mk
      [⟨"a.mat", none, (none : Option String)⟩, ⟨"b.mat", none, none⟩]).voc_list,
      v.annot = none :=
  ⟨(C6_positional_annotations exFS "mat" (some "spect") none (some ["A"]) true
      (Or.inl rfl) (by decide)).1 ["A"] rfl (by decide) (by decide),
   (C6_positional_annotations exFS "mat" (some "spect") none none false
      (Or.inl rfl) (by decide)).2 rfl _ (by decide)⟩

/-- C8: if validation passes but some resolved file fails to load
during an eager build, `from_arr_files` raises `LoadError` carrying the
path of a failing file, and returns no dataset at all (construction is
all-or-nothing).  -/
theorem C8_load_failure_aborts {A : Type} (fs : FileSystem) (fmt : String)
    (d? : Option String) (f? : Option (List String)) (m? : Option (List (String × A)))
    (al : Option (List A)) (pairs : List (String × Option A))
    (hfmt : fmt = "mat" ∨ fmt = "npz")
    (hmode : countModes d? f? m? = 1)
    (hma : (m?.isSome && al.isSome) = false)
    (hres : resolvePairs fs fmt d? f? m? al = .ok pairs)
    (hfail : ∃ pr ∈ pairs, ∃ e, archiveLoader fs pr.1 = .error e) :
    ∃ q, q ∈ pairs.map Prod.fst ∧ archiveLoader fs q = .error (.loadError q) ∧
      from_arr_files fs fmt d? f? m? al true = .error (.loadError q) ∧
      ∀ ds : VocalDataset A, from_arr_files fs fmt d? f? m? al true ≠ .ok ds := by
  obtain ⟨q, e, hq, hqe, hbvl⟩ := buildVocList_fail hfail
  have he : e = .loadError q := archiveLoader_error hqe
  subst he
  have heq := from_arr_files_eq_buildPairs true hfmt hmode hma hres
  have hbp : buildPairs (archiveLoader fs) true pairs =
      (.error (.loadError q) : Except BuildErr (VocalDataset A)) := by
    unfold buildPairs
    rw [if_pos rfl, hbvl]
    rfl
  refine ⟨q, hq, hqe, ?_, ?_⟩
  · rw [heq, hbp]
  · intro ds hds
    rw [heq, hbp] at hds
    exact Except.noConfusion hds

/-- C8 witness: a directory with one matching file whose payload is
missing makes the eager build fail with `loadError "a.mat"` and no
dataset is returned.  -/
theorem C8_witness :
    ∃ q, q ∈ ([("a.mat", (none : Option String))].map Prod.fst) ∧
      archiveLoader brokenFS q = .error (.loadError q) ∧
      from_arr_files brokenFS "mat" (some "spect") none
        (none : Option (List (String × String))) none true = .error (.loadError q) ∧
      ∀ ds : VocalDataset String,
        from_arr_files brokenFS "mat" (some "spect") none
          (none : Option (List (String × String))) none true ≠ .ok ds :=
  C8_load_failure_aborts brokenFS "mat" (some "spect") none none none
    [("a.mat", none)] (Or.inl rfl) (by decide) (by decide) (by decide)
    ⟨("a.mat", none), by decide, .loadError "a.mat", by decide⟩

/-- C7 witness: the eager build over the two-file fixture directory
succeeds and its first entry satisfies the axis-length invariant.  -/
theorem C7_witness :
    ∃ sp, (Vocalization.mk "a.mat" (some ⟨[[1, 2]], [5], [3, 4]⟩)
        (some "A")).spect = some sp ∧
      sp.freq_bins.length = sp.array.length ∧
      ∀ row ∈ sp.array, row.length = sp.time_bins.length :=
  C7_loaded_invariant exFS "mat" (some "spect") none none (some ["A", "B"])
    (VocalDataset.mk
      [⟨"a.mat", some ⟨[[1, 2]], [5], [3, 4]⟩, some "A"⟩,
       ⟨"b.mat", some ⟨[[7, 8], [9, 10]], [5, 6], [3, 4]⟩, some "B"⟩])
    (by decide)
    ⟨"a.mat", some ⟨[[1, 2]], [5], [3, 4]⟩, some "A"⟩ (by decide)

/-- C9: `songdeck.config.parse.parse` never returns normally: an
argument string not ending in `.ini` raises `ValueError`; one ending in
`.ini` reaches the `os.path.isfile` check and raises `NameError`
because the module never imports `os`; and even if that check were
reachable and passed, the call `ConfigTuple(data, spect_params)` with
only two of the six required fields would raise `TypeError`.  -/
theorem C9_parse_never_returns :
    (∀ (pfs : PyFileSystem) (cfg : IniConfig) (s : String),
       ¬ (listEndsWith s.data ".ini".data = true) →
       parse pfs cfg s =
         .error (.valueError
           (s ++ " is not a valid config file, must have .ini extension"))) ∧
    (∀ (pfs : PyFileSystem) (cfg : IniConfig) (s : String),
       listEndsWith s.data ".ini".data = true →
       parse pfs cfg s = .error (.nameError "os")) ∧
    configTupleFields.length = 6 ∧
    (∀ a b : PyVal, callConfigTuple [a, b] = .error .typeError) ∧
    (∀ (pfs : PyFileSystem) (cfg : IniConfig) (s : String) (v : PyVal),
       parse pfs cfg s ≠ .ok v) := by
  have h1 : ∀ (pfs : PyFileSystem) (cfg : IniConfig) (s : String),
      ¬ (listEndsWith s.data ".ini".data = true) →
      parse pfs cfg s =
        .error (.valueError
          (s ++ " is not a valid config file, must have .ini extension")) := by
    intro pfs cfg s hend
    unfold parse
    rw [if_pos hend]
  have h2 : ∀ (pfs : PyFileSystem) (cfg : IniConfig) (s : String),
      listEndsWith s.data ".ini".data = true →
      parse pfs cfg s = .error (.nameError "os") := by
    intro pfs cfg s hend
    unfold parse
    rw [if_neg (not_not_intro hend)]
    rfl
  refine ⟨h1, h2, rfl, ?_, ?_⟩
  · intro a b
    unfold callConfigTuple
    rw [if_neg (by simp [configTupleFields])]
  · intro pfs cfg s v h
    by_cases hend : listEndsWith s.data ".ini".data = true
    · rw [h2 pfs cfg s hend] at h
      exact Except.noConfusion h
    · rw [h1 pfs cfg s hend] at h
      exact Except.noConfusion h

/-- C9 witness: at concrete inputs, a non-`.ini` name raises
`ValueError`, a `.ini` name raises `NameError` over the unbound name
`os`, and the two-argument `ConfigTuple` call raises `TypeError`.  -/
theorem C9_witness :
    parse exPyFS exCfg "config.json" =
      .error (.valueError
        "config.json is not a valid config file, must have .ini extension") ∧
    parse exPyFS exCfg "config.ini" = .error (.nameError "os") ∧
    callConfigTuple [PyVal.obj, PyVal.obj] = .error .typeError ∧
    parse exPyFS exCfg "config.ini" ≠ .ok PyVal.obj :=
  ⟨C9_parse_never_returns.1 exPyFS exCfg "config.json" (by decide),
   C9_parse_never_returns.2.1 exPyFS exCfg "config.ini" (by decide),
   C9_parse_never_returns.2.2.2.1 PyVal.obj PyVal.obj,
   C9_parse_never_returns.2.2.2.2 exPyFS exCfg "config.ini" PyVal.obj⟩

/-- C10: `vak.config.converters.bool_from_str` returns `None`, rather
than raising, for every input whose type is neither `bool` nor `str`:
the function has no else branch and falls through to an implicit
`None`.  -/
theorem C10_bool_from_str_falls_through (v : PyVal)
    (hb : ∀ b, v ≠ .bool b) (hs : ∀ s, v ≠ .str s) :
    bool_from_str v = .ok PyVal.none := by
  cases v with
  | bool b => exact absurd rfl (hb b)
  | str s => exact absurd rfl (hs s)
  | int n => rfl
  | none => rfl
  | obj => rfl

/-- C10 witness: the integer input 5 is neither a `bool` nor a `str`,
and `bool_from_str` returns `None` on it.  -/
theorem C10_witness : bool_from_str (.int 5) = .ok PyVal.none :=
  C10_bool_from_str_falls_through (.int 5)
    (fun _ h => PyVal.noConfusion h) (fun _ h => PyVal.noConfusion h)

end Vak

